import Mathlib

/-!
# ApiserverApply (pkg/plan/resource/apiserver_apply.go)

Shallow embedding of the `ApiserverApply` plan resource: content resolution
(`content`), the apply path (`Apply`, `apiserverApply`, `apiserverRemoteApply`)
and the state snapshot (`State`).

Go values are embedded as follows.
* `[]byte` is `ByteSlice := Option (List Byte)`: `none` is the nil slice,
  `some bs` a non-nil slice (`some []` is the non-nil empty slice).
* `error` is `Option GoError`, `none` being the nil error.
* `fmt.Stringer` is `Stringer := Option String`: `none` is the nil interface,
  `some s` a value whose `String()` renders `s`.
* Calls that leave the function (HTTP GET, body read, file read, namespace
  rewrite, the call of `apiserverApply`, runner commands, log lines) are
  recorded, in order, in a list of `Event`s returned next to the Go result.
-/

namespace Resource

/-- One byte. -/
abbrev Byte := Fin 256

/-- Go `[]byte`: `none` is the nil slice, `some bs` a non-nil slice. -/
abbrev ByteSlice := Option (List Byte)

/-- Go builtin `len` on a `[]byte`; the nil slice has length zero. -/
def len : ByteSlice → Nat
  | none => 0
  | some bs => bs.length

/-- A non-nil Go `error` value: one made by `errors.New` with a message, or a
value handed back by a collaborator, identified by its dynamic type and
message. -/
inductive GoError where
  | New (msg : String)
  | Foreign (typ : String) (msg : String)
deriving DecidableEq, Repr

/-- Go `fmt.Stringer`: `none` is the nil interface, `some s` a value whose
`String()` method renders `s`. -/
abbrev Stringer := Option String

/-- The embedded `resource.Base`; it carries no configuration. -/
structure Base where
deriving DecidableEq, Repr

/-- The `ApiserverApply` struct, field for field. -/
structure ApiserverApply where
  Base : Base
  Manifest : ByteSlice
  ManifestPath : Stringer
  ManifestURL : Stringer
  Namespace : Stringer
  OpaqueManifest : ByteSlice
  WaitCondition : String
deriving DecidableEq, Repr

/-- The `apiserverApplyArgs` struct. -/
structure apiserverApplyArgs where
  Content : ByteSlice
  WaitCondition : String
deriving DecidableEq, Repr

/-- The body of an HTTP response as `ioutil.ReadAll` sees it: the bytes
delivered before the stream ended, and the error that ended it (`none` when it
ended with EOF). -/
structure Reader where
  data : ByteSlice
  err : Option GoError
deriving DecidableEq, Repr

/-- The part of `http.Response` that `content` touches. -/
structure Response where
  StatusCode : Nat
  Body : Reader
deriving DecidableEq, Repr

/-- Go `ioutil.ReadAll`: the data read until an error or EOF, with that error
(nil for EOF). -/
def ReadAll (r : Reader) : ByteSlice × Option GoError := (r.data, r.err)

/-- Calls observable from outside `Apply`, in the order they happen. -/
inductive Event where
  | httpGet (url : String)
  | readAll (resp : Response)
  | bodyClose (resp : Response)
  | readFile (path : String)
  | withNamespace (c : ByteSlice) (ns : String)
  | apiserverApply (args : apiserverApplyArgs)
  | runCommand (cmd : String)
  | logDebug (msg : String)
deriving DecidableEq, Repr

/-- The collaborators of this file that live outside it. `str` is the package
helper rendering a `fmt.Stringer` (its source is not in this file, so every
result below holds for any rendering); `httpGet` is `http.Get`; `readFile` is
`ioutil.ReadFile`; `WithNamespace` is `manifest.WithNamespace` applied to
`serializer.FromBytes c`. -/
structure Env where
  str : Stringer → String
  httpGet : String → Except GoError Response
  readFile : String → ByteSlice × Option GoError
  WithNamespace : ByteSlice → String → ByteSlice × Option GoError

/-- The `plan.Runner` interface: `RunCommand` gives the combined output and an
error. -/
structure Runner where
  RunCommand : String → String × Option GoError

/-- A value of `plan.State`: the kinds of values the fields of
`ApiserverApply` hold. -/
inductive Value where
  | bytes (b : ByteSlice)
  | stringer (s : Stringer)
  | string (s : String)
  | struct (fields : List (String × String))
deriving DecidableEq, Repr

/-- Go `plan.State`, a mapping from attribute name to value, kept as an
association list in field order. -/
abbrev State := List (String × Value)

/-- Modelled from the spec: `plan.Diff`, the plan engine's prior-vs-current
comparison object, whose declaration is not in this file. -/
structure Diff where
  CurrentState : State
  InvalidatedState : State
deriving DecidableEq, Repr

/-- One field of a struct as reflection sees it: its Go name, the value of its
`structs` tag (`none` when the field has no such tag), and its value. -/
structure Field where
  name : String
  tag : Option String
  value : Value
deriving DecidableEq, Repr

/-- The fields of `ApiserverApply` with their `structs` tags, read off the
struct declaration. -/
def ApiserverApply.fields (a : ApiserverApply) : List Field :=
  [ ⟨"Base", none, .struct []⟩,
    ⟨"Manifest", some "manifest", .bytes a.Manifest⟩,
    ⟨"ManifestPath", some "manifestPath", .stringer a.ManifestPath⟩,
    ⟨"ManifestURL", some "manifestURL", .stringer a.ManifestURL⟩,
    ⟨"Namespace", some "namespace", .stringer a.Namespace⟩,
    ⟨"OpaqueManifest", some "-", .bytes a.OpaqueManifest⟩,
    ⟨"WaitCondition", some "afterApplyWaitsFor", .string a.WaitCondition⟩ ]

/-- Modelled from the spec: `resource.ToState`, the tag-driven, reflection-based
derivation of the fingerprint, whose source is not in this file. A field tagged
`structs:"-"` is left out; every other field is entered under its tag, or under
its Go name when it has no tag. -/
def ToState (fs : List Field) : State :=
  fs.filterMap fun f =>
    match f.tag with
    | some "-" => none
    | some t => some (t, f.value)
    | none => some (f.name, f.value)

/-- `State` implements plan.Resource. -/
def ApiserverApply.State (a : ApiserverApply) : State :=
  ToState a.fields

/-- The method `content`: the manifest bytes and the error, with the calls
made. -/
def ApiserverApply.content (env : Env) (a : ApiserverApply) :
    (ByteSlice × Option GoError) × List Event :=
  if a.Manifest ≠ none then
    ((a.Manifest, none), [])
  else if a.OpaqueManifest ≠ none then
    ((a.OpaqueManifest, none), [])
  else if env.str a.ManifestURL ≠ "" then
    match env.httpGet (env.str a.ManifestURL) with
    | .error err => ((none, some err), [.httpGet (env.str a.ManifestURL)])
    | .ok resp =>
      (ReadAll resp.Body,
        [.httpGet (env.str a.ManifestURL), .readAll resp, .bodyClose resp])
  else if env.str a.ManifestPath ≠ "" then
    (env.readFile (env.str a.ManifestPath), [.readFile (env.str a.ManifestPath)])
  else
    ((none, some (.New "no content provided")), [])

/-- The function `apiserverApply`: its body only returns nil; the apply and
wait commands are commented out in the source, so the runner is not called. -/
def apiserverApply (_r : Runner) (_args : apiserverApplyArgs) :
    Option GoError × List Event :=
  (none, [])

/-- The function `apiserverRemoteApply`: logs "applying" and returns nil; the
runner command is commented out in the source. -/
def apiserverRemoteApply (_remoteURL : String) (_runner : Runner) :
    Option GoError × List Event :=
  (none, [.logDebug "applying"])

/-- The tail of `Apply` from the call of `apiserverApply` on, with working
content `c` and the calls `t` made so far. -/
def ApiserverApply.submit (a : ApiserverApply) (runner : Runner) (c : ByteSlice)
    (t : List Event) : (Bool × Option GoError) × List Event :=
  match apiserverApply runner ⟨c, a.WaitCondition⟩ with
  | (some err, t') => ((false, some err), t ++ .apiserverApply ⟨c, a.WaitCondition⟩ :: t')
  | (none, t') => ((true, none), t ++ .apiserverApply ⟨c, a.WaitCondition⟩ :: t')

/-- The method `Apply`: the pair `(changed, error)`, with the calls made. -/
def ApiserverApply.Apply (env : Env) (a : ApiserverApply) (runner : Runner)
    (_diff : Diff) : (Bool × Option GoError) × List Event :=
  match a.content env with
  | ((_, some err), t) => ((false, some err), t)
  | ((c, none), t) =>
    if env.str a.Namespace ≠ "" then
      match env.WithNamespace c (env.str a.Namespace) with
      | (_, some err) =>
        ((false, some err), t ++ [.withNamespace c (env.str a.Namespace)])
      | (content, none) =>
        a.submit runner (if len content ≠ 0 then content else c)
          (t ++ [.withNamespace c (env.str a.Namespace)])
    else
      a.submit runner c t

/-- The arguments of every call of `apiserverApply` recorded in a trace. -/
def submitted : List Event → List apiserverApplyArgs
  | [] => []
  | .apiserverApply args :: es => args :: submitted es
  | _ :: es => submitted es

/-- Whether a trace records a file read. -/
def reads : List Event → Bool
  | [] => false
  | .readFile _ :: _ => true
  | _ :: es => reads es

/-- Whether a trace records a call of the namespace rewriter. -/
def rewrites : List Event → Bool
  | [] => false
  | .withNamespace _ _ :: _ => true
  | _ :: es => rewrites es

/-- The commands run through the runner recorded in a trace. -/
def commands : List Event → List String
  | [] => []
  | .runCommand cmd :: es => cmd :: commands es
  | _ :: es => commands es

/-! ## Concrete collaborators and specs used to evaluate the code -/

/-- Collaborators that all succeed: a nil `Stringer` renders the empty
string, the GET answers 200 with body `[1, 2]`, every file holds `[3]`, and the
namespace rewriter hands back non-empty bytes `[9]`. -/
def envOk : Env where
  str := fun s => s.getD ""
  httpGet := fun _ => .ok ⟨200, ⟨some [1, 2], none⟩⟩
  readFile := fun _ => (some [3], none)
  WithNamespace := fun _ _ => (some [9], none)

/-- As `envOk`, with a namespace rewriter that finds nothing to rewrite and
returns the nil slice without error. -/
def envNoop : Env where
  str := fun s => s.getD ""
  httpGet := fun _ => .ok ⟨200, ⟨some [1, 2], none⟩⟩
  readFile := fun _ => (some [3], none)
  WithNamespace := fun _ _ => (none, none)

/-- Collaborators that all fail with the error `e`. -/
def envFail (e : GoError) : Env where
  str := fun s => s.getD ""
  httpGet := fun _ => .error e
  readFile := fun _ => (none, some e)
  WithNamespace := fun _ _ => (none, some e)

/-- A runner whose every command succeeds with empty output. -/
def runnerOk : Runner where
  RunCommand := fun _ => ("", none)

/-- A runner whose every command fails (non-zero exit). -/
def runnerFail : Runner where
  RunCommand := fun _ => ("", some (.Foreign "*exec.ExitError" "exit status 1"))

/-- A diff between two empty states. -/
def diffEmpty : Diff := ⟨[], []⟩

/-- The spec with no field set. -/
def specNone : ApiserverApply := ⟨⟨⟩, none, none, none, none, none, ""⟩

/-- Only `Manifest` set, to the bytes `[7]`. -/
def specInline : ApiserverApply := ⟨⟨⟩, some [7], none, none, none, none, ""⟩

/-- Only `OpaqueManifest` set, to the bytes `[8]`. -/
def specOpaque : ApiserverApply := ⟨⟨⟩, none, none, none, none, some [8], ""⟩

/-- Only `ManifestURL` set. -/
def specURL : ApiserverApply := ⟨⟨⟩, none, none, some "http://h/x", none, none, ""⟩

/-- Only `ManifestPath` set. -/
def specPath : ApiserverApply := ⟨⟨⟩, none, some "/m.yaml", none, none, none, ""⟩

/-- All four content sources set at once. -/
def specAll : ApiserverApply :=
  ⟨⟨⟩, some [7], some "/m.yaml", some "http://h/x", none, some [8], ""⟩

/-- The sources `OpaqueManifest`, `ManifestURL` and `ManifestPath` set. -/
def specOpaqueURLPath : ApiserverApply :=
  ⟨⟨⟩, none, some "/m.yaml", some "http://h/x", none, some [8], ""⟩

/-- The sources `ManifestURL` and `ManifestPath` set. -/
def specURLPath : ApiserverApply :=
  ⟨⟨⟩, none, some "/m.yaml", some "http://h/x", none, none, ""⟩

/-- Inline manifest `[7]` with namespace "prod". -/
def specNamespaced : ApiserverApply :=
  ⟨⟨⟩, some [7], none, none, some "prod", none, ""⟩

/-- Inline manifest `[7]` with wait condition "condition=established". -/
def specWait : ApiserverApply :=
  ⟨⟨⟩, some [7], none, none, none, none, "condition=established"⟩

/-- Opaque manifest `[8]` with wait condition "condition=established". -/
def specOpaqueWait : ApiserverApply :=
  ⟨⟨⟩, none, none, none, none, some [8], "condition=established"⟩

/-- Only `Manifest` set, to a non-nil slice of length zero. -/
def specEmptyInline : ApiserverApply := ⟨⟨⟩, some [], none, none, none, none, ""⟩

/-- The GET succeeds but reading the body stops with the error `e` after the
bytes `[1]`; the file read hands back `[3]` together with `e`. -/
def envTruncated (e : GoError) : Env where
  str := fun s => s.getD ""
  httpGet := fun _ => .ok ⟨200, ⟨some [1], some e⟩⟩
  readFile := fun _ => (some [3], some e)
  WithNamespace := fun _ _ => (none, some e)

/-- A transport-level error as a collaborator hands it back. -/
def errDial : GoError := .Foreign "*url.Error" "dial tcp: no such host"

/-- The spec `specInline` with `OpaqueManifest` set as well. -/
def specInlineSecret : ApiserverApply := ⟨⟨⟩, some [7], none, none, none, some [8], ""⟩

/-! ## Helper lemmas -/

theorem submitted_append (t u : List Event) :
    submitted (t ++ u) = submitted t ++ submitted u := by
  induction t with
  | nil => rfl
  | cons e es ih => cases e <;> simp [submitted, ih]

theorem content_cases (env : Env) (a : ApiserverApply) :
    (a.Manifest ≠ none ∧ a.content env = ((a.Manifest, none), [])) ∨
    (a.Manifest = none ∧ a.OpaqueManifest ≠ none ∧
      a.content env = ((a.OpaqueManifest, none), [])) ∨
    (a.Manifest = none ∧ a.OpaqueManifest = none ∧ env.str a.ManifestURL ≠ "" ∧
      ∃ err, env.httpGet (env.str a.ManifestURL) = .error err ∧
        a.content env = ((none, some err), [.httpGet (env.str a.ManifestURL)])) ∨
    (a.Manifest = none ∧ a.OpaqueManifest = none ∧ env.str a.ManifestURL ≠ "" ∧
      ∃ resp, env.httpGet (env.str a.ManifestURL) = .ok resp ∧
        a.content env = (ReadAll resp.Body,
          [.httpGet (env.str a.ManifestURL), .readAll resp, .bodyClose resp])) ∨
    (a.Manifest = none ∧ a.OpaqueManifest = none ∧ env.str a.ManifestURL = "" ∧
      env.str a.ManifestPath ≠ "" ∧
      a.content env =
        (env.readFile (env.str a.ManifestPath), [.readFile (env.str a.ManifestPath)])) ∨
    (a.Manifest = none ∧ a.OpaqueManifest = none ∧ env.str a.ManifestURL = "" ∧
      env.str a.ManifestPath = "" ∧
      a.content env = ((none, some (.New "no content provided")), [])) := by
  unfold ApiserverApply.content
  by_cases h1 : a.Manifest = none
  · by_cases h2 : a.OpaqueManifest = none
    · by_cases h3 : env.str a.ManifestURL = ""
      · by_cases h4 : env.str a.ManifestPath = ""
        · simp [h1, h2, h3, h4]
        · simp [h1, h2, h3, h4]
      · cases h : env.httpGet (env.str a.ManifestURL) with
        | error err => simp [h1, h2, h3]
        | ok resp => simp [h1, h2, h3]
    · simp [h1, h2]
  · simp [h1]

theorem content_submitted (env : Env) (a : ApiserverApply) :
    submitted (a.content env).2 = [] := by
  rcases content_cases env a with h | h | h | h | h | h
  · rw [h.2]; rfl
  · rw [h.2.2]; rfl
  · obtain ⟨_, _, _, err, _, hc⟩ := h
    rw [hc]; rfl
  · obtain ⟨_, _, _, resp, _, hc⟩ := h
    rw [hc]; rfl
  · rw [h.2.2.2.2]; rfl
  · rw [h.2.2.2.2]; rfl

theorem Apply_content_error (env : Env) (a : ApiserverApply) (runner : Runner)
    (diff : Diff) (c : ByteSlice) (err : GoError) (t : List Event)
    (h : a.content env = ((c, some err), t)) :
    a.Apply env runner diff = ((false, some err), t) := by
  simp [ApiserverApply.Apply, h]

theorem Apply_no_namespace (env : Env) (a : ApiserverApply) (runner : Runner)
    (diff : Diff) (c : ByteSlice) (t : List Event)
    (h : a.content env = ((c, none), t)) (hns : env.str a.Namespace = "") :
    a.Apply env runner diff =
      ((true, none), t ++ [.apiserverApply ⟨c, a.WaitCondition⟩]) := by
  simp [ApiserverApply.Apply, ApiserverApply.submit, apiserverApply, h, hns]

theorem Apply_rewrite_error (env : Env) (a : ApiserverApply) (runner : Runner)
    (diff : Diff) (c r : ByteSlice) (err : GoError) (t : List Event)
    (h : a.content env = ((c, none), t)) (hns : env.str a.Namespace ≠ "")
    (hr : env.WithNamespace c (env.str a.Namespace) = (r, some err)) :
    a.Apply env runner diff =
      ((false, some err), t ++ [.withNamespace c (env.str a.Namespace)]) := by
  simp [ApiserverApply.Apply, h, hns, hr]

theorem Apply_rewrite_ok (env : Env) (a : ApiserverApply) (runner : Runner)
    (diff : Diff) (c r : ByteSlice) (t : List Event)
    (h : a.content env = ((c, none), t)) (hns : env.str a.Namespace ≠ "")
    (hr : env.WithNamespace c (env.str a.Namespace) = (r, none)) :
    a.Apply env runner diff =
      ((true, none), t ++ [.withNamespace c (env.str a.Namespace),
        .apiserverApply ⟨if len r ≠ 0 then r else c, a.WaitCondition⟩]) := by
  simp [ApiserverApply.Apply, ApiserverApply.submit, apiserverApply, h, hns, hr]

/-! ## Content resolution -/

/-- C1: when exactly one of the four content sources is set, `content` succeeds
(nil error) with that source's bytes: the `Manifest` slice itself, the
`OpaqueManifest` slice itself, the whole body of the response to the GET of the
URL (the GET and the body read succeeding), or the whole contents of the file
at the path (the read succeeding). -/
theorem content_exactly_one_source (env : Env) (a : ApiserverApply) :
    (a.Manifest ≠ none → a.OpaqueManifest = none → env.str a.ManifestURL = "" →
      env.str a.ManifestPath = "" → (a.content env).1 = (a.Manifest, none)) ∧
    (a.Manifest = none → a.OpaqueManifest ≠ none → env.str a.ManifestURL = "" →
      env.str a.ManifestPath = "" → (a.content env).1 = (a.OpaqueManifest, none)) ∧
    (∀ resp : Response, a.Manifest = none → a.OpaqueManifest = none →
      env.str a.ManifestURL ≠ "" → env.str a.ManifestPath = "" →
      env.httpGet (env.str a.ManifestURL) = .ok resp → resp.Body.err = none →
      (a.content env).1 = (resp.Body.data, none)) ∧
    (∀ file : ByteSlice, a.Manifest = none → a.OpaqueManifest = none →
      env.str a.ManifestURL = "" → env.str a.ManifestPath ≠ "" →
      env.readFile (env.str a.ManifestPath) = (file, none) →
      (a.content env).1 = (file, none)) := by
  refine ⟨?_, ?_, ?_, ?_⟩
  · intro h1 _ _ _
    simp [ApiserverApply.content, h1]
  · intro h1 h2 _ _
    simp [ApiserverApply.content, h1, h2]
  · intro resp h1 h2 h3 _ hg he
    simp [ApiserverApply.content, h1, h2, h3, hg, ReadAll, he]
  · intro file h1 h2 h3 h4 hf
    simp [ApiserverApply.content, h1, h2, h3, h4, hf]

/-- Witness of C1 at one spec per source, with collaborators that succeed. -/
theorem content_exactly_one_source_witness :
    (specInline.content envOk).1 = (some [7], none) ∧
    (specOpaque.content envOk).1 = (some [8], none) ∧
    (specURL.content envOk).1 = (some [1, 2], none) ∧
    (specPath.content envOk).1 = (some [3], none) :=
  ⟨(content_exactly_one_source envOk specInline).1 (by decide) rfl rfl rfl,
   (content_exactly_one_source envOk specOpaque).2.1 rfl (by decide) rfl rfl,
   (content_exactly_one_source envOk specURL).2.2.1 ⟨200, ⟨some [1, 2], none⟩⟩
      rfl rfl (by decide) rfl rfl rfl,
   (content_exactly_one_source envOk specPath).2.2.2 (some [3])
      rfl rfl rfl (by decide) rfl⟩

/-- C2: `content` resolves by the precedence inline > opaque > URL > path.
A set `Manifest` is returned whatever else is set (also a set
`OpaqueManifest`), with no call made at all; with `Manifest` nil a set
`OpaqueManifest` is returned, again with no call made; with both nil and a
non-empty URL the outcome is that of the GET and body read, and no file is
read; the path is read only when the three sources above it are unset. -/
theorem content_precedence (env : Env) (a : ApiserverApply) :
    (a.Manifest ≠ none → a.content env = ((a.Manifest, none), [])) ∧
    (a.Manifest ≠ none → a.OpaqueManifest ≠ none →
      (a.content env).1 = (a.Manifest, none)) ∧
    (a.Manifest = none → a.OpaqueManifest ≠ none →
      a.content env = ((a.OpaqueManifest, none), [])) ∧
    (a.Manifest = none → a.OpaqueManifest = none → env.str a.ManifestURL ≠ "" →
      reads (a.content env).2 = false ∧
      (∀ resp : Response, env.httpGet (env.str a.ManifestURL) = .ok resp →
        (a.content env).1 = ReadAll resp.Body) ∧
      (∀ err : GoError, env.httpGet (env.str a.ManifestURL) = .error err →
        (a.content env).1 = (none, some err))) ∧
    (a.Manifest = none → a.OpaqueManifest = none → env.str a.ManifestURL = "" →
      env.str a.ManifestPath ≠ "" →
      a.content env =
        (env.readFile (env.str a.ManifestPath), [.readFile (env.str a.ManifestPath)])) := by
  refine ⟨?_, ?_, ?_, ?_, ?_⟩
  · intro h1
    simp [ApiserverApply.content, h1]
  · intro h1 _
    simp [ApiserverApply.content, h1]
  · intro h1 h2
    simp [ApiserverApply.content, h1, h2]
  · intro h1 h2 h3
    refine ⟨?_, ?_, ?_⟩
    · cases hg : env.httpGet (env.str a.ManifestURL) with
      | error err => simp [ApiserverApply.content, h1, h2, h3, hg, reads]
      | ok resp => simp [ApiserverApply.content, h1, h2, h3, hg, reads]
    · intro resp hg
      simp [ApiserverApply.content, h1, h2, h3, hg]
    · intro err hg
      simp [ApiserverApply.content, h1, h2, h3, hg]
  · intro h1 h2 h3 h4
    simp [ApiserverApply.content, h1, h2, h3, h4]

/-- Witness of C2 at specs with several sources set. -/
theorem content_precedence_witness :
    specAll.content envOk = ((some [7], none), []) ∧
    (specAll.content envOk).1 = (some [7], none) ∧
    specOpaqueURLPath.content envOk = ((some [8], none), []) ∧
    (reads (specURLPath.content envOk).2 = false ∧
      (∀ resp : Response, envOk.httpGet (envOk.str specURLPath.ManifestURL) = .ok resp →
        (specURLPath.content envOk).1 = ReadAll resp.Body) ∧
      (∀ err : GoError, envOk.httpGet (envOk.str specURLPath.ManifestURL) = .error err →
        (specURLPath.content envOk).1 = (none, some err))) ∧
    specPath.content envOk = ((some [3], none), [.readFile "/m.yaml"]) :=
  ⟨(content_precedence envOk specAll).1 (by decide),
   (content_precedence envOk specAll).2.1 (by decide) (by decide),
   (content_precedence envOk specOpaqueURLPath).2.2.1 rfl (by decide),
   (content_precedence envOk specURLPath).2.2.2.1 rfl rfl (by decide),
   (content_precedence envOk specPath).2.2.2.2 rfl rfl rfl (by decide)⟩

/-- C3: with no content source set (`Manifest` and `OpaqueManifest` nil,
`ManifestURL` and `ManifestPath` rendering the empty string) `content` returns
the nil slice and the error "no content provided", and `Apply` returns
`changed = false` with that error for every runner and diff, having called
neither the namespace rewriter nor `apiserverApply`. -/
theorem no_content_provided (env : Env) (a : ApiserverApply)
    (h1 : a.Manifest = none) (h2 : a.OpaqueManifest = none)
    (h3 : env.str a.ManifestURL = "") (h4 : env.str a.ManifestPath = "") :
    a.content env = ((none, some (.New "no content provided")), []) ∧
    ∀ (runner : Runner) (diff : Diff),
      (a.Apply env runner diff).1 = (false, some (.New "no content provided")) ∧
      rewrites (a.Apply env runner diff).2 = false ∧
      submitted (a.Apply env runner diff).2 = [] ∧
      (a.Apply env runner diff).2 = [] := by
  have hc : a.content env = ((none, some (.New "no content provided")), []) := by
    simp [ApiserverApply.content, h1, h2, h3, h4]
  refine ⟨hc, ?_⟩
  intro runner diff
  rw [Apply_content_error env a runner diff _ _ _ hc]
  exact ⟨rfl, rfl, rfl, rfl⟩

/-- Witness of C3 at the spec with no field set. -/
theorem no_content_provided_witness :
    specNone.content envOk = ((none, some (.New "no content provided")), []) ∧
    ∀ (runner : Runner) (diff : Diff),
      (specNone.Apply envOk runner diff).1 = (false, some (.New "no content provided")) ∧
      rewrites (specNone.Apply envOk runner diff).2 = false ∧
      submitted (specNone.Apply envOk runner diff).2 = [] ∧
      (specNone.Apply envOk runner diff).2 = [] :=
  no_content_provided envOk specNone rfl rfl rfl rfl

/-! ## The apply path -/

/-- C4: when content resolves to `c` and the namespace is non-empty, a
rewriter result of length zero (no error) leaves `c` as the `Content` passed
to `apiserverApply` and `Apply` still returns `changed = true` with nil error;
a non-empty rewriter result is the `Content` passed instead. -/
theorem namespace_rewrite_content (env : Env) (a : ApiserverApply) (runner : Runner)
    (diff : Diff) (c r : ByteSlice) (t : List Event)
    (h : a.content env = ((c, none), t)) (hns : env.str a.Namespace ≠ "")
    (hr : env.WithNamespace c (env.str a.Namespace) = (r, none)) :
    (len r = 0 →
      submitted (a.Apply env runner diff).2 = [⟨c, a.WaitCondition⟩] ∧
      (a.Apply env runner diff).1 = (true, none)) ∧
    (len r ≠ 0 →
      submitted (a.Apply env runner diff).2 = [⟨r, a.WaitCondition⟩] ∧
      (a.Apply env runner diff).1 = (true, none)) := by
  have ht : submitted t = [] := by
    have := content_submitted env a
    rwa [h] at this
  rw [Apply_rewrite_ok env a runner diff c r t h hns hr]
  constructor
  · intro h0
    simp [submitted_append, ht, submitted, h0]
  · intro h0
    simp [submitted_append, ht, submitted, h0]

/-- Witness of C4: a rewriter returning the nil slice, and one returning
`[9]`, on the inline manifest `[7]` with namespace "prod". -/
theorem namespace_rewrite_content_witness :
    (submitted (specNamespaced.Apply envNoop runnerOk diffEmpty).2 = [⟨some [7], ""⟩] ∧
      (specNamespaced.Apply envNoop runnerOk diffEmpty).1 = (true, none)) ∧
    (submitted (specNamespaced.Apply envOk runnerOk diffEmpty).2 = [⟨some [9], ""⟩] ∧
      (specNamespaced.Apply envOk runnerOk diffEmpty).1 = (true, none)) :=
  ⟨(namespace_rewrite_content envNoop specNamespaced runnerOk diffEmpty (some [7]) none []
      rfl (by decide) rfl).1 rfl,
   (namespace_rewrite_content envOk specNamespaced runnerOk diffEmpty (some [7]) (some [9]) []
      rfl (by decide) rfl).2 (by decide)⟩

/-- C5: evaluation at the failing input. With a wait condition set and a
runner whose every command fails, `Apply` returns `changed = true` with nil
error: `apiserverApply` runs no wait command (no command at all reaches the
runner). -/
theorem Apply_skips_wait :
    specWait.Apply envOk runnerFail diffEmpty =
      ((true, none), [.apiserverApply ⟨some [7], "condition=established"⟩]) ∧
    commands (specWait.Apply envOk runnerFail diffEmpty).2 = [] ∧
    apiserverApply runnerFail ⟨some [7], "condition=established"⟩ = (none, []) := by
  decide

/-- C6: evaluation at the failing input. With a runner whose every command
fails, `Apply` on an inline manifest returns `changed = true` with nil error:
no submission command reaches the runner, neither from `apiserverApply` nor
from `apiserverRemoteApply`. -/
theorem Apply_skips_submission :
    specInline.Apply envOk runnerFail diffEmpty =
      ((true, none), [.apiserverApply ⟨some [7], ""⟩]) ∧
    commands (specInline.Apply envOk runnerFail diffEmpty).2 = [] ∧
    apiserverRemoteApply "http://h/x" runnerFail = (none, [.logDebug "applying"]) := by
  decide

/-- C7: evaluation at the failing input. With an opaque manifest, a wait
condition and a runner whose every command fails, `Apply` returns
`changed = true` with nil error although neither a submission nor a wait
completed through the runner: no command reaches it, every command it could be
given fails, and the outcome is the same for every runner. -/
theorem Apply_changed_without_submission_or_wait :
    specOpaqueWait.Apply envOk runnerFail diffEmpty =
      ((true, none), [.apiserverApply ⟨some [8], "condition=established"⟩]) ∧
    commands (specOpaqueWait.Apply envOk runnerFail diffEmpty).2 = [] ∧
    (∀ cmd : String, (runnerFail.RunCommand cmd).2 ≠ none) ∧
    (∀ runner : Runner, (specOpaqueWait.Apply envOk runner diffEmpty).1 = (true, none)) := by
  refine ⟨by decide, by decide, ?_, ?_⟩
  · intro cmd
    simp [runnerFail]
  · intro runner
    rfl

/-! ## The state snapshot -/

/-- C8: `State` leaves `OpaqueManifest` out. Two specs that agree on
`Manifest`, `ManifestPath`, `ManifestURL`, `Namespace` and `WaitCondition`
have the same state whatever their `OpaqueManifest`, and the state is the
listed mapping, none of whose entries is read from `OpaqueManifest`. -/
theorem State_excludes_OpaqueManifest (a b : ApiserverApply)
    (hM : a.Manifest = b.Manifest) (hP : a.ManifestPath = b.ManifestPath)
    (hU : a.ManifestURL = b.ManifestURL) (hN : a.Namespace = b.Namespace)
    (hW : a.WaitCondition = b.WaitCondition) :
    a.State = b.State ∧
    a.State =
      [ ("Base", .struct []),
        ("manifest", .bytes a.Manifest),
        ("manifestPath", .stringer a.ManifestPath),
        ("manifestURL", .stringer a.ManifestURL),
        ("namespace", .stringer a.Namespace),
        ("afterApplyWaitsFor", .string a.WaitCondition) ] := by
  have key : ∀ x : ApiserverApply, x.State =
      [ ("Base", .struct []),
        ("manifest", .bytes x.Manifest),
        ("manifestPath", .stringer x.ManifestPath),
        ("manifestURL", .stringer x.ManifestURL),
        ("namespace", .stringer x.Namespace),
        ("afterApplyWaitsFor", .string x.WaitCondition) ] := by
    intro x
    simp [ApiserverApply.State, ApiserverApply.fields, ToState]
  refine ⟨?_, key a⟩
  rw [key a, key b, hM, hP, hU, hN, hW]

/-- Witness of C8: the inline spec with and without an opaque manifest. -/
theorem State_excludes_OpaqueManifest_witness :
    specInline.State = specInlineSecret.State ∧
    specInline.State =
      [ ("Base", .struct []),
        ("manifest", .bytes (some [7])),
        ("manifestPath", .stringer none),
        ("manifestURL", .stringer none),
        ("namespace", .stringer none),
        ("afterApplyWaitsFor", .string "") ] :=
  State_excludes_OpaqueManifest specInline specInlineSecret rfl rfl rfl rfl rfl

/-! ## Errors -/

/-- C9, counterexample: with the GET, the file read and the namespace rewrite
each failing with the same error `errDial`, the three errors returned by
`Apply` are not pairwise distinct and none differs from the bare `errDial`. -/
theorem Apply_errors_not_distinguishable :
    ¬ ((specURL.Apply (envFail errDial) runnerOk diffEmpty).1.2 ≠
          (specPath.Apply (envFail errDial) runnerOk diffEmpty).1.2 ∧
       (specPath.Apply (envFail errDial) runnerOk diffEmpty).1.2 ≠
          (specNamespaced.Apply (envFail errDial) runnerOk diffEmpty).1.2 ∧
       (specURL.Apply (envFail errDial) runnerOk diffEmpty).1.2 ≠
          (specNamespaced.Apply (envFail errDial) runnerOk diffEmpty).1.2 ∧
       (specURL.Apply (envFail errDial) runnerOk diffEmpty).1.2 ≠ some errDial ∧
       (specPath.Apply (envFail errDial) runnerOk diffEmpty).1.2 ≠ some errDial ∧
       (specNamespaced.Apply (envFail errDial) runnerOk diffEmpty).1.2 ≠ some errDial) := by
  decide

/-- C9, amended: `Apply` hands back the error of a failed step as it is,
with `changed = false`: the error `e` of a failed GET, of a failed read of the
response body, of a failed file read, and of a failed namespace rewrite each
come back as the bare `e`. -/
theorem Apply_returns_bare_error (env : Env) (a : ApiserverApply) (runner : Runner)
    (diff : Diff) (e : GoError) :
    (a.Manifest = none → a.OpaqueManifest = none → env.str a.ManifestURL ≠ "" →
      env.httpGet (env.str a.ManifestURL) = .error e →
      (a.Apply env runner diff).1 = (false, some e)) ∧
    (∀ resp : Response, a.Manifest = none → a.OpaqueManifest = none →
      env.str a.ManifestURL ≠ "" → env.httpGet (env.str a.ManifestURL) = .ok resp →
      resp.Body.err = some e → (a.Apply env runner diff).1 = (false, some e)) ∧
    (∀ file : ByteSlice, a.Manifest = none → a.OpaqueManifest = none →
      env.str a.ManifestURL = "" → env.str a.ManifestPath ≠ "" →
      env.readFile (env.str a.ManifestPath) = (file, some e) →
      (a.Apply env runner diff).1 = (false, some e)) ∧
    (∀ (c r : ByteSlice) (t : List Event), a.content env = ((c, none), t) →
      env.str a.Namespace ≠ "" →
      env.WithNamespace c (env.str a.Namespace) = (r, some e) →
      (a.Apply env runner diff).1 = (false, some e)) := by
  refine ⟨?_, ?_, ?_, ?_⟩
  · intro h1 h2 h3 hg
    have hc : a.content env = ((none, some e), [.httpGet (env.str a.ManifestURL)]) := by
      simp [ApiserverApply.content, h1, h2, h3, hg]
    rw [Apply_content_error env a runner diff _ _ _ hc]
  · intro resp h1 h2 h3 hg he
    have hc : a.content env = ((resp.Body.data, some e),
        [.httpGet (env.str a.ManifestURL), .readAll resp, .bodyClose resp]) := by
      simp [ApiserverApply.content, h1, h2, h3, hg, ReadAll, he]
    rw [Apply_content_error env a runner diff _ _ _ hc]
  · intro file h1 h2 h3 h4 hf
    have hc : a.content env = ((file, some e), [.readFile (env.str a.ManifestPath)]) := by
      simp [ApiserverApply.content, h1, h2, h3, h4, hf]
    rw [Apply_content_error env a runner diff _ _ _ hc]
  · intro c r t hc hns hr
    rw [Apply_rewrite_error env a runner diff c r e t hc hns hr]

/-- Witness of the amended C9: one failing collaborator at a time, all with
the error `errDial`. -/
theorem Apply_returns_bare_error_witness :
    (specURL.Apply (envFail errDial) runnerOk diffEmpty).1 = (false, some errDial) ∧
    (specURL.Apply (envTruncated errDial) runnerOk diffEmpty).1 = (false, some errDial) ∧
    (specPath.Apply (envTruncated errDial) runnerOk diffEmpty).1 = (false, some errDial) ∧
    (specNamespaced.Apply (envFail errDial) runnerOk diffEmpty).1 = (false, some errDial) :=
  ⟨(Apply_returns_bare_error (envFail errDial) specURL runnerOk diffEmpty errDial).1
      rfl rfl (by decide) rfl,
   (Apply_returns_bare_error (envTruncated errDial) specURL runnerOk diffEmpty errDial).2.1
      ⟨200, ⟨some [1], some errDial⟩⟩ rfl rfl (by decide) rfl rfl,
   (Apply_returns_bare_error (envTruncated errDial) specPath runnerOk diffEmpty errDial).2.2.1
      (some [3]) rfl rfl rfl (by decide) rfl,
   (Apply_returns_bare_error (envFail errDial) specNamespaced runnerOk diffEmpty errDial).2.2.2
      (some [7]) none [] rfl (by decide) rfl⟩

/-- C10: evaluation at the failing input. A `Manifest` that is a non-nil slice
of length zero resolves without error and reaches `apiserverApply` as a
`Content` of length zero. -/
theorem Apply_submits_empty_content :
    specEmptyInline.Apply envOk runnerOk diffEmpty =
      ((true, none), [.apiserverApply ⟨some [], ""⟩]) ∧
    (submitted (specEmptyInline.Apply envOk runnerOk diffEmpty).2).map
      (fun args => len args.Content) = [0] := by
  decide

end Resource
